import Mathlib

/-!
Shallow embedding of `gerrit_repository_compare_requests.py`.

The script fetches a Gerrit change, lists its files, fetches a per-file diff
and renders a textual digest.  Pure helpers (`strip_gerrit_json`,
`is_ignored_file`, the diff renderer `repository_compare`) are translated
directly; the HTTP session and `json.loads` are modelled by an abstract
`Fetcher` (a map from URL to response plus a JSON decoder), and the driver
`Repository_Compare` is translated as a function of that environment which
also records the trace of URLs it requests, in order.
-/

/-- Model of a decoded Python/JSON value as produced by `json.loads`.
Numbers are modelled as integers (no claim touches floats). -/
inductive Json where
  | null
  | bool (b : Bool)
  | num (n : Int)
  | str (s : String)
  | arr (elems : List Json)
  | obj (fields : List (String × Json))

/-- Lookup of a key in a decoded JSON object (Python `dict` access).
The field list stands for an already-built `dict`, so the first match wins. -/
def jlookup : List (String × Json) → String → Option Json
  | [], _ => none
  | (k, v) :: rest, key => if k = key then some v else jlookup rest key

/-- Python truthiness of a decoded JSON value (`if not revision_id`). -/
def Json.truthy : Json → Bool
  | .null => false
  | .bool b => b
  | .num n => n != 0
  | .str s => s != ""
  | .arr l => !l.isEmpty
  | .obj l => !l.isEmpty

/-- Python `str()` of a decoded JSON value, as used in f-string
interpolation.  Strings interpolate as themselves, integers and booleans and
`None` by their Python spelling; the `repr` of composite values is not
needed by any claim and is collapsed to a placeholder. -/
def Json.pyStr : Json → String
  | .null => "None"
  | .bool true => "True"
  | .bool false => "False"
  | .num n => toString n
  | .str s => s
  | .arr _ => "<list>"
  | .obj _ => "<dict>"

/-- The characters of the Gerrit XSS-protection framing `)]}'`. -/
def gerritMagic : List Char := ")]\x7d'".data

/-- Suffix of `cs` strictly after the first occurrence of `c`
(Python `text.split(c, 1)[1]`, defined when `c` occurs). -/
def afterChar (c : Char) : List Char → List Char
  | [] => []
  | x :: xs => if x = c then xs else afterChar c xs

/-- Translation of `strip_gerrit_json` (source lines 12–18): if the text
starts with `)]}'` return everything after the first newline (or `""` when
there is no newline), otherwise return the text unchanged.
`startswith`/`in` are rendered on the character list of the string. -/
def strip_gerrit_json (text : String) : String :=
  if text.data.take 4 = gerritMagic then
    if text.data.contains '\n' then String.mk (afterChar '\n' text.data) else ""
  else text

/-- Python `str.rfind`: index of the last occurrence of `c` in `cs`,
`-1` when absent. -/
def rfindIdx (c : Char) (cs : List Char) : Int :=
  match cs with
  | [] => -1
  | x :: xs =>
    let r := rfindIdx c xs
    if r ≥ 0 then r + 1 else if x = c then 0 else -1

/-- The extension part of `os.path.splitext` (posix rules): the suffix from
the last `.` that lies strictly after the last `/`, provided at least one
non-dot character stands between that `/` (or the start) and the dot;
otherwise the empty string. -/
def splitext_ext (p : String) : String :=
  let cs := p.data
  let sepIndex := rfindIdx '/' cs
  let dotIndex := rfindIdx '.' cs
  if sepIndex < dotIndex then
    let nameStart := (sepIndex + 1).toNat
    let between := (cs.drop nameStart).take (dotIndex.toNat - nameStart)
    if between.any (fun ch => ch ≠ '.') then String.mk (cs.drop dotIndex.toNat) else ""
  else ""

/-- The extension denylist of `is_ignored_file` (source line 56). -/
def ext_list : List String :=
  [".so", ".a", ".md", ".png", ".jpg", ".jpeg", ".gif", ".zip", ".tar", ".gz", ".bz2"]

/-- ASCII lower-casing of one character (`str.lower`, restricted to the
ASCII range, which covers the ASCII-only denylist). -/
def lowerChar (c : Char) : Char :=
  if 'A' ≤ c ∧ c ≤ 'Z' then Char.ofNat (c.toNat + 32) else c

/-- ASCII lower-casing of a string (`ext.lower()`). -/
def lowerStr (s : String) : String :=
  String.mk (s.data.map lowerChar)

/-- Translation of `is_ignored_file` (source lines 54–58): the lower-cased
`os.path.splitext` extension is in the denylist. -/
def is_ignored_file (path : String) : Bool :=
  ext_list.contains (lowerStr (splitext_ext path))

/-- Errors a run of the script can raise.  `str(e)` of an exception built
with a single message argument is that message. -/
inductive PyErr where
  | httpError (msg : String)
  | runtimeError (msg : String)
  | typeError (msg : String)
  | attributeError (msg : String)
deriving DecidableEq

/-- Python `str(e)` of an error (used by the `[Error] {e}` entries). -/
def PyErr.pyStr : PyErr → String
  | .httpError m => m
  | .runtimeError m => m
  | .typeError m => m
  | .attributeError m => m

/-- Python slice `s[:k]` on a string, rendered on the character list. -/
def pyTakeStr (k : Nat) (s : String) : String :=
  String.mk (s.data.take k)

/-- Python slice `l[0:k]`. -/
def pyTake (k : Nat) (l : List α) : List α := l.take k

/-- Python slice `l[-k:]` for `k > 0`: the last `min k (length l)` elements. -/
def pyLast (k : Nat) (l : List α) : List α := l.drop (l.length - k)

/-- Translation of the inner `format_compare` (source lines 63–64): each
line interpolated after the given marker and terminated by a newline. -/
def format_compare (lines : List Json) (pfx : String := "") : String :=
  String.join (lines.map (fun line => pfx ++ line.pyStr ++ "\n"))

/-- A JSON value being sliced like a Python list (`block["ab"][-4:]`).
Only JSON arrays are in the modelled domain; any other shape is collapsed
to a `TypeError` (Python would also slice a raw string here, a case no
well-formed Gerrit diff produces). -/
def asLines : Json → Except PyErr (List Json)
  | .arr l => pure l
  | _ => .error (.typeError "value is not sliceable as a list")

/-- One iteration of the block loop of `repository_compare` (source lines
67–84): the contribution of the block at index `i` out of `n` blocks. -/
def renderBlock (n i : Nat) (block : Json) : Except PyErr String :=
  match block with
  | .obj fields =>
    match jlookup fields "ab" with
    | some abv => do
      let lines ← asLines abv
      if i = 0 then pure (format_compare (pyLast 4 lines))
      else if i = n - 1 then pure (format_compare (pyTake 4 lines))
      else pure (format_compare (pyTake 4 lines) ++ format_compare (pyLast 4 lines))
    | none =>
      match jlookup fields "a", jlookup fields "b" with
      | some av, some bv => do
        let la ← asLines av
        let lb ← asLines bv
        pure (format_compare la "-" ++ format_compare lb "+")
      | some av, none => do
        let la ← asLines av
        pure (format_compare la "-")
      | none, some bv => do
        let lb ← asLines bv
        pure (format_compare lb "+")
      | none, none => pure ""
  | _ => .error (.typeError "block is not a dict")

/-- The block loop of `repository_compare`, accumulating the output string
over the blocks from index `i` on. -/
def renderBlocks (n : Nat) : Nat → List Json → Except PyErr String
  | _, [] => pure ""
  | i, b :: rest => do
    let s ← renderBlock n i b
    let t ← renderBlocks n (i + 1) rest
    pure (s ++ t)

/-- `diff_json.get("content", [])` (source line 61); non-dict responses and
non-list `content` values are collapsed to the Python error they would
eventually raise when iterated. -/
def getContent (diff_json : Json) : Except PyErr (List Json) :=
  match diff_json with
  | .obj fields =>
    match jlookup fields "content" with
    | some (.arr l) => pure l
    | some _ => .error (.typeError "content is not iterable as diff blocks")
    | none => pure []
  | _ => .error (.attributeError "diff response is not a dict")

/-- Translation of the inner `repository_compare` (source lines 60–85). -/
def repository_compare (diff_json : Json) : Except PyErr String := do
  let diff_info ← getContent diff_json
  let out ← renderBlocks diff_info.length 0 diff_info
  pure (out ++ "\n\n\n")

/-- Outcome of an HTTP GET followed by `raise_for_status()`: either the
response text of a success status, or the `requests.HTTPError` raised. -/
inductive Response where
  | ok (body : String)
  | httpErr (msg : String)
deriving DecidableEq

/-- The environment of a run: the network (a map from URL to response, one
session, no state) and the `json.loads` decoder of the standard library,
kept abstract because its internals are not part of this repository. -/
structure Fetcher where
  fetch : String → Response
  jsonLoads : String → Except String Json

/-- UTF-8 encoding of one character, as the list of its byte values. -/
def utf8EncodeChar (c : Char) : List Nat :=
  let n := c.toNat
  if n < 128 then [n]
  else if n < 2048 then [192 + n / 64, 128 + n % 64]
  else if n < 65536 then [224 + n / 4096, 128 + (n / 64) % 64, 128 + n % 64]
  else [240 + n / 262144, 128 + (n / 4096) % 64, 128 + (n / 64) % 64, 128 + n % 64]

/-- Upper-case hexadecimal digit of a value below 16. -/
def hexDigitChar (n : Nat) : Char :=
  if n < 10 then Char.ofNat (48 + n) else Char.ofNat (55 + n)

/-- Bytes `urllib.parse.quote` never encodes: ASCII letters, digits and
`_.-~` (with `safe=""` nothing else is kept). -/
def isUnreservedByte (b : Nat) : Bool :=
  (65 ≤ b && b ≤ 90) || (97 ≤ b && b ≤ 122) || (48 ≤ b && b ≤ 57) ||
    b == 45 || b == 46 || b == 95 || b == 126

/-- Percent-encoding of one byte under `quote(path, safe="")`. -/
def quoteByte (b : Nat) : String :=
  if isUnreservedByte b then String.mk [Char.ofNat b]
  else String.mk ['%', hexDigitChar (b / 16), hexDigitChar (b % 16)]

/-- `urllib.parse.quote(file_path, safe="")` (source line 92). -/
def urlquote (s : String) : String :=
  String.join (((s.data.map utf8EncodeChar).flatten).map quoteByte)

/-- The change-info URL (source line 28). -/
def change_url (base_url change_id : String) : String :=
  base_url ++ "/a/changes/" ++ change_id ++ "?o=CURRENT_REVISION"

/-- The file-list URL (source line 41). -/
def files_url (base_url change_id revision : String) : String :=
  base_url ++ "/a/changes/" ++ change_id ++ "/revisions/" ++ revision ++ "/files"

/-- The per-file diff URL (source line 93). -/
def diff_url (file_url file_path : String) : String :=
  file_url ++ "/" ++ urlquote file_path ++ "/diff"

/-- Lines 36–38: `change_data.get("current_revision")` and the falsy check
that raises when the field is missing or empty. -/
def extract_revision (change_data : Json) : Except PyErr Json :=
  match change_data with
  | .obj fields =>
    match jlookup fields "current_revision" with
    | some v =>
      if v.truthy then pure v
      else .error (.runtimeError "No current_revision found. Check change_id or permissions.")
    | none => .error (.runtimeError "No current_revision found. Check change_id or permissions.")
  | _ => .error (.attributeError "change response is not a dict")

/-- Translation of `make_message` (source lines 87–103), paired with the
list of URLs it requests (empty for an ignored file, otherwise exactly the
diff URL). -/
def make_message (F : Fetcher) (file_url file_path : String) :
    List String × Except PyErr String :=
  if is_ignored_file file_path then ([], pure "")
  else
    let path_url := diff_url file_url file_path
    ([path_url],
      match F.fetch path_url with
      | .httpErr m => .error (.httpError m)
      | .ok body =>
        match F.jsonLoads (strip_gerrit_json body) with
        | .error e =>
          .error (.runtimeError ("Decode diff for " ++ file_path ++ " failed: " ++ e ++
            "\nRaw: " ++ pyTakeStr 200 body))
        | .ok return_data =>
          match repository_compare return_data with
          | .error e => .error e
          | .ok rendered => pure ("======== file: " ++ file_path ++ "\n\n" ++ rendered))

/-- One iteration of the results loop (source lines 106–114): the URLs
requested for the file and the (zero or one) entries appended to
`results`, with the two `except` arms turned into inline error entries. -/
def processFile (F : Fetcher) (file_url file_path : String) :
    List String × List String :=
  let (tr, res) := make_message F file_url file_path
  (tr,
    match res with
    | .ok msg => if msg = "" then [] else [msg]
    | .error (.httpError m) =>
      ["======== file: " ++ file_path ++ "\n\n[HTTP error] " ++ m ++ "\n\n"]
    | .error e =>
      ["======== file: " ++ file_path ++ "\n\n[Error] " ++ e.pyStr ++ "\n\n"])

/-- The results loop over the whole file list, concatenating traces and
result entries in order. -/
def runFiles (F : Fetcher) (file_url : String) : List String → List String × List String
  | [] => ([], [])
  | fp :: rest =>
    let (t, r) := processFile F file_url fp
    let (ts, rs) := runFiles F file_url rest
    (t ++ ts, r ++ rs)

/-- The sentinel pseudo-files dropped from the file list (source line 51). -/
def special_keys : List String := ["/COMMIT_MSG", "/MERGE_LIST"]

/-- Source line 52: `[k for k in file_data.keys() if k not in special_keys]`. -/
def filtered_file_list (keys : List String) : List String :=
  keys.filter (fun k => !special_keys.contains k)

/-- `file_data.keys()` as an ordered list (Python dicts preserve insertion
order); non-dict responses raise as in Python. -/
def pyKeys : Json → Except PyErr (List String)
  | .obj fields => pure (fields.map (fun kv => kv.1))
  | _ => .error (.attributeError "files response is not a dict")

/-- Translation of `Repository_Compare` (source lines 21–116), paired with
the ordered trace of every URL the run requests.  Uncaught errors of the
prelude (steps 1 and 2) abort the run with that error. -/
def Repository_Compare_run (F : Fetcher) (base_url change_id : String) :
    List String × Except PyErr (List String) :=
  let cu := change_url base_url change_id
  match F.fetch cu with
  | .httpErr m => ([cu], .error (.httpError m))
  | .ok body =>
    match F.jsonLoads (strip_gerrit_json body) with
    | .error e =>
      ([cu], .error (.runtimeError ("Decode change response failed: " ++ e ++
        "\nRaw: " ++ pyTakeStr 200 body)))
    | .ok change_data =>
      match extract_revision change_data with
      | .error e => ([cu], .error e)
      | .ok revision_id =>
        let fu := files_url base_url change_id revision_id.pyStr
        match F.fetch fu with
        | .httpErr m => ([cu, fu], .error (.httpError m))
        | .ok fbody =>
          match F.jsonLoads (strip_gerrit_json fbody) with
          | .error e =>
            ([cu, fu], .error (.runtimeError ("Decode files response failed: " ++ e ++
              "\nRaw: " ++ pyTakeStr 200 fbody)))
          | .ok file_data =>
            match pyKeys file_data with
            | .error e => ([cu, fu], .error e)
            | .ok keys =>
              let (tr, results) := runFiles F fu (filtered_file_list keys)
              (cu :: fu :: tr, .ok results)

/-- The value `Repository_Compare` returns (or the error it raises). -/
def Repository_Compare (F : Fetcher) (base_url change_id : String) :
    Except PyErr (List String) :=
  (Repository_Compare_run F base_url change_id).2

/-- Join a list of lines, each line terminated by a newline. -/
def joinNL (ls : List String) : String :=
  String.join (ls.map (fun l => l ++ "\n"))

/-- The rendering the claim prescribes for an unchanged-context (`"ab"`)
block at index `i` of an `n`-block content list, stated in the claim's own
words: the first block contributes only its last 4 lines, the last block
only its first 4 lines, every other block its first 4 then its last 4,
each line newline-terminated.  (For a one-block list the first-block case
applies, as in the claim's order of conditions.) -/
def spec_ab_render (n i : Nat) (lines : List String) : String :=
  if i = 0 then joinNL (lines.drop (lines.length - 4))
  else if i = n - 1 then joinNL (lines.take 4)
  else joinNL (lines.take 4) ++ joinNL (lines.drop (lines.length - 4))

/-- The rendering the claim prescribes for a changed block: every removed
line with a `-` marker, then every added line with a `+` marker, each line
newline-terminated and none truncated. -/
def spec_changed_render (removed added : List String) : String :=
  String.join (removed.map (fun l => "-" ++ l ++ "\n")) ++
    String.join (added.map (fun l => "+" ++ l ++ "\n"))

/-- Strings of a JSON array all of whose elements are strings. -/
def allStrs : List Json → Option (List String)
  | [] => some []
  | Json.str s :: rest => (allStrs rest).map (fun t => s :: t)
  | _ => none

/-- The lines of a JSON value that is an array of strings. -/
def strLines : Json → Option (List String)
  | .arr l => allStrs l
  | _ => none

/-- An absent key holds no lines to render; a present one must be an array
of strings. -/
def wfOptVal : Option Json → Bool
  | none => true
  | some v => (strLines v).isSome

/-- A well-formed Gerrit diff block: a JSON object whose `"ab"`, `"a"` and
`"b"` values, where present, are arrays of strings. -/
def wfBlock : Json → Bool
  | .obj fields =>
    wfOptVal (jlookup fields "ab") && wfOptVal (jlookup fields "a") &&
      wfOptVal (jlookup fields "b")
  | _ => false

/-- Whether a block carries the `"ab"` key (`"ab" in block`). -/
def hasAb : Json → Bool
  | .obj fields => (jlookup fields "ab").isSome
  | _ => false

/-- The context lines of an unchanged block, when it is one. -/
def abLines : Json → Option (List String)
  | .obj fields => (jlookup fields "ab").bind strLines
  | _ => none

/-- The removed lines of a block (`[]` when the `"a"` key is absent). -/
def aLines : Json → Option (List String)
  | .obj fields =>
    match jlookup fields "a" with
    | none => some []
    | some v => strLines v
  | _ => none

/-- The added lines of a block (`[]` when the `"b"` key is absent). -/
def bLines : Json → Option (List String)
  | .obj fields =>
    match jlookup fields "b" with
    | none => some []
    | some v => strLines v
  | _ => none

/-- Concrete diff blocks used by the witnesses: one context block of five
lines, one changed block, one trailing context block. -/
def wBlocks : List Json :=
  [ Json.obj [("ab", Json.arr [Json.str "c1", Json.str "c2", Json.str "c3",
      Json.str "c4", Json.str "c5"])]
  , Json.obj [("a", Json.arr [Json.str "old"]), ("b", Json.arr [Json.str "new"])]
  , Json.obj [("ab", Json.arr [Json.str "d1"])] ]

/-- A concrete diff response built from `wBlocks`. -/
def wDiffJson : Json :=
  Json.obj [("content", Json.arr wBlocks)]

/-- A concrete decoder for the witnesses: three recognised payloads, all
others a decode failure. -/
def wDecode : String → Except String Json := fun s =>
  if s = "CH" then .ok (Json.obj [("current_revision", Json.str "R")])
  else if s = "FL" then .ok (Json.obj
    [("/COMMIT_MSG", Json.null), ("f.py", Json.null), ("g.md", Json.null),
     ("h.py", Json.null), ("/MERGE_LIST", Json.null)])
  else if s = "DJ" then .ok wDiffJson
  else .error "Expecting value"

/-- A concrete network for the witnesses: the change and file-list
endpoints succeed, `f.py`'s diff succeeds, `h.py`'s diff fails with a 404. -/
def wFetch : String → Response := fun u =>
  if u = change_url "http://g" "42" then .ok ")]\x7d'\nCH"
  else if u = files_url "http://g" "42" "R" then .ok ")]\x7d'\nFL"
  else if u = diff_url (files_url "http://g" "42" "R") "f.py" then .ok ")]\x7d'\nDJ"
  else .httpErr "404 Client Error"

/-- The main witness environment. -/
def wF : Fetcher := ⟨wFetch, wDecode⟩

/-- A variant of `wFetch` that differs only at `h.py`'s diff URL, where it
succeeds instead of failing. -/
def wFetch2 : String → Response := fun u =>
  if u = diff_url (files_url "http://g" "42" "R") "h.py" then .ok ")]\x7d'\nDJ"
  else wFetch u

/-- The environment that agrees with `wF` everywhere but on `h.py`'s diff. -/
def wF2 : Fetcher := ⟨wFetch2, wDecode⟩

/-- An environment whose very first request fails. -/
def wFdown : Fetcher := ⟨fun _ => .httpErr "503 Service Unavailable", wDecode⟩

/-- The value of a successful renderer step (`""` for an error, a case the
well-formedness hypotheses rule out). -/
def okValue : Except PyErr String → String
  | .ok s => s
  | .error _ => ""

/-- The string the block loop appends for the block at index `j` of the
content list (its contribution to the rendered output). -/
def codeContrib (blocks : List Json) (j : Nat) : String :=
  okValue (renderBlock blocks.length j (blocks.getD j Json.null))

/-! ## Helper lemmas -/

theorem join_cons (s : String) (l : List String) :
    String.join (s :: l) = s ++ String.join l := by
  apply String.ext
  simp [String.data_join, String.data_append]

theorem joinNL_append (a b : List String) :
    joinNL (a ++ b) = joinNL a ++ joinNL b := by
  apply String.ext
  simp [joinNL, String.data_join, String.data_append]

theorem afterChar_append (c : Char) (xs ys : List Char) (h : c ∉ xs) :
    afterChar c (xs ++ c :: ys) = ys := by
  induction xs with
  | nil => simp [afterChar]
  | cons x xt ih =>
    simp only [List.mem_cons, not_or] at h
    rw [List.cons_append, afterChar, if_neg (fun hxc => h.1 hxc.symm), ih h.2]

theorem str_append_ne_empty (a b c : String) (h : a.data ≠ []) :
    a ++ b ++ c ≠ "" := by
  intro hc
  have : (a ++ b ++ c).data = [] := by rw [hc]
  rw [String.data_append, String.data_append] at this
  simp [h] at this

/-! ## The claims -/

/-- C4: `strip_gerrit_json` strips the Gerrit XSS-protection framing: a
text starting with `)]}'` is reduced to the remainder after its first
newline (the empty string when there is no newline at all), and any other
text is passed through unchanged. -/
theorem c4_xss_framing_stripped (pre post t : String) :
    (pre.data.contains '\n' = false →
      strip_gerrit_json (")]\x7d'" ++ pre ++ "\n" ++ post) = post) ∧
    (pre.data.contains '\n' = false →
      strip_gerrit_json (")]\x7d'" ++ pre) = "") ∧
    (t.data.take 4 ≠ gerritMagic → strip_gerrit_json t = t) := by
  refine ⟨fun hpre => ?_, fun hpre => ?_, fun ht => ?_⟩
  · have hnot : '\n' ∉ pre.data := by simp at hpre; exact hpre
    have hdata : (")]\x7d'" ++ pre ++ "\n" ++ post).data =
        (gerritMagic ++ pre.data) ++ '\n' :: post.data := by
      simp [String.data_append, gerritMagic]
    rw [strip_gerrit_json, hdata]
    have hmag : ((gerritMagic ++ pre.data) ++ '\n' :: post.data).take 4 = gerritMagic := by
      rw [List.append_assoc]
      have : gerritMagic.length = 4 := by decide
      rw [← this, List.take_left]
    rw [if_pos hmag]
    have hcontains : ((gerritMagic ++ pre.data) ++ '\n' :: post.data).contains '\n' = true := by
      simp
    rw [if_pos hcontains]
    have hnot2 : '\n' ∉ gerritMagic ++ pre.data := by
      intro hm
      rcases List.mem_append.mp hm with hm | hm
      · simp [gerritMagic] at hm
      · exact hnot hm
    rw [afterChar_append _ _ _ hnot2]
  · have hdata : (")]\x7d'" ++ pre).data = gerritMagic ++ pre.data := by
      simp [String.data_append, gerritMagic]
    rw [strip_gerrit_json, hdata]
    have hmag : (gerritMagic ++ pre.data).take 4 = gerritMagic := by
      have : gerritMagic.length = 4 := by decide
      rw [← this, List.take_left]
    rw [if_pos hmag]
    have hnot : '\n' ∉ pre.data := by simp at hpre; exact hpre
    have hnot2 : '\n' ∉ gerritMagic ++ pre.data := by
      intro hm
      rcases List.mem_append.mp hm with hm | hm
      · simp [gerritMagic] at hm
      · exact hnot hm
    rw [if_neg (by simp; exact ⟨by decide, hnot⟩)]
  · rw [strip_gerrit_json, if_neg ht]

/-- Witness for C4 at concrete inputs. -/
theorem c4_witness :
    strip_gerrit_json (")]\x7d'" ++ "xss" ++ "\n" ++ "payload") = "payload" ∧
    strip_gerrit_json (")]\x7d'" ++ "xss") = "" ∧
    strip_gerrit_json "plain text" = "plain text" :=
  ⟨(c4_xss_framing_stripped "xss" "payload" "plain text").1 (by decide),
   (c4_xss_framing_stripped "xss" "payload" "plain text").2.1 (by decide),
   (c4_xss_framing_stripped "xss" "payload" "plain text").2.2 (by decide)⟩

/-- C5: filtering the file list removes exactly the two sentinel keys and
keeps every other key, preserving their order. -/
theorem c5_sentinel_keys_filtered (keys : List String) (k : String) :
    (k ∈ filtered_file_list keys ↔
      k ∈ keys ∧ k ≠ "/COMMIT_MSG" ∧ k ≠ "/MERGE_LIST") ∧
    List.Sublist (filtered_file_list keys) keys := by
  constructor
  · simp [filtered_file_list, List.mem_filter, special_keys]
  · exact List.filter_sublist _

/-- Witness for C5 on a concrete file-list response. -/
theorem c5_witness :
    "a.py" ∈ filtered_file_list ["/COMMIT_MSG", "a.py", "/MERGE_LIST", "b.c"] ∧
    "/COMMIT_MSG" ∉ filtered_file_list ["/COMMIT_MSG", "a.py", "/MERGE_LIST", "b.c"] :=
  ⟨(c5_sentinel_keys_filtered ["/COMMIT_MSG", "a.py", "/MERGE_LIST", "b.c"] "a.py").1.mpr
      ⟨by decide, by decide, by decide⟩,
   fun hmem =>
    (((c5_sentinel_keys_filtered ["/COMMIT_MSG", "a.py", "/MERGE_LIST", "b.c"]
      "/COMMIT_MSG").1.mp hmem).2.1) rfl⟩

theorem runFiles_eq (F : Fetcher) (u : String) (fl : List String) :
    runFiles F u fl =
      (fl.flatMap (fun fp => (processFile F u fp).1),
       fl.flatMap (fun fp => (processFile F u fp).2)) := by
  induction fl with
  | nil => simp [runFiles]
  | cons fp rest ih => simp [runFiles, ih]

theorem processFile_ignored (F : Fetcher) (u fp : String)
    (h : is_ignored_file fp = true) : processFile F u fp = ([], []) := by
  simp [processFile, make_message, h, pure, Except.pure]

theorem processFile_not_ignored_trace (F : Fetcher) (u fp : String)
    (h : is_ignored_file fp = false) : (processFile F u fp).1 = [diff_url u fp] := by
  simp [processFile, make_message, h]

/-- C6: files whose extension is denylisted get no diff request and leave
no entry in the results; every non-ignored file of the list gets exactly
one diff request, in order. -/
theorem c6_extension_denylist (F : Fetcher) (u : String) (fl : List String) :
    (runFiles F u fl).1 =
      (fl.filter (fun fp => !is_ignored_file fp)).map (fun fp => diff_url u fp) ∧
    (runFiles F u fl).2 =
      (fl.filter (fun fp => !is_ignored_file fp)).flatMap
        (fun fp => (processFile F u fp).2) := by
  induction fl with
  | nil => simp [runFiles]
  | cons fp rest ih =>
    rcases ih with ⟨ih1, ih2⟩
    by_cases h : is_ignored_file fp
    · simp [runFiles, processFile_ignored F u fp h, h, List.filter_cons, ih1, ih2]
    · have h2 : is_ignored_file fp = false := by simpa using h
      simp [runFiles, List.filter_cons, h2, ih1, ih2,
        processFile_not_ignored_trace F u fp h2]

/-- C3: a failure on one file's diff is recorded inline (naming the file)
and does not abort the loop — results are accumulated file by file, an
HTTP or decode failure yields exactly that file's inline error entry, and
a change confined to one file's diff URL leaves every other file's
contribution unchanged. -/
theorem c3_per_file_error_isolation (F F2 : Fetcher) (u fp : String) (fl : List String)
    (hjson : F.jsonLoads = F2.jsonLoads)
    (hagree : ∀ q, q ≠ diff_url u fp → F.fetch q = F2.fetch q) :
    ((runFiles F u fl).2 = fl.flatMap (fun g => (processFile F u g).2)) ∧
    (∀ m, is_ignored_file fp = false → F.fetch (diff_url u fp) = .httpErr m →
      (processFile F u fp).2 =
        ["======== file: " ++ fp ++ "\n\n[HTTP error] " ++ m ++ "\n\n"]) ∧
    (∀ body e, is_ignored_file fp = false → F.fetch (diff_url u fp) = .ok body →
      F.jsonLoads (strip_gerrit_json body) = .error e →
      (processFile F u fp).2 =
        ["======== file: " ++ fp ++ "\n\n[Error] " ++
          ("Decode diff for " ++ fp ++ " failed: " ++ e ++ "\nRaw: " ++
            pyTakeStr 200 body) ++ "\n\n"]) ∧
    (∀ g, diff_url u g ≠ diff_url u fp → processFile F u g = processFile F2 u g) := by
  refine ⟨by rw [runFiles_eq], fun m hig hf => ?_, fun body e hig hf hd => ?_,
    fun g hne => ?_⟩
  · simp [processFile, make_message, hig, hf, PyErr.pyStr]
  · simp [processFile, make_message, hig, hf, hd, PyErr.pyStr]
  · by_cases hg : is_ignored_file g
    · simp [processFile, make_message, hg]
    · have hg2 : is_ignored_file g = false := by simpa using hg
      have hfe : F.fetch (diff_url u g) = F2.fetch (diff_url u g) := hagree _ hne
      simp [processFile, make_message, hg2, hfe, hjson]

/-- Witness for C3: changing only `h.py`'s diff response leaves `f.py`'s
contribution unchanged. -/
theorem c3_witness :
    processFile wF (files_url "http://g" "42" "R") "f.py" =
      processFile wF2 (files_url "http://g" "42" "R") "f.py" :=
  (c3_per_file_error_isolation wF wF2 (files_url "http://g" "42" "R") "h.py" ["f.py"]
    rfl
    (fun q hq => by
      show wFetch q = wFetch2 q
      rw [wFetch2]
      exact (if_neg hq).symm)).2.2.2 "f.py" (by decide)

/-- C7: the first request of every run is the change GET; when any step of
the change GET, its decode, or the `current_revision` extraction fails, no
further request is made; and when all three succeed, the second request is
exactly the file-list URL built from the extracted revision. -/
theorem c7_request_sequencing (F : Fetcher) (base_url change_id : String) :
    (Repository_Compare_run F base_url change_id).1.head? =
      some (change_url base_url change_id) ∧
    (∀ m, F.fetch (change_url base_url change_id) = .httpErr m →
      (Repository_Compare_run F base_url change_id).1 =
        [change_url base_url change_id]) ∧
    (∀ body e, F.fetch (change_url base_url change_id) = .ok body →
      F.jsonLoads (strip_gerrit_json body) = .error e →
      (Repository_Compare_run F base_url change_id).1 =
        [change_url base_url change_id]) ∧
    (∀ body cd er, F.fetch (change_url base_url change_id) = .ok body →
      F.jsonLoads (strip_gerrit_json body) = .ok cd →
      extract_revision cd = .error er →
      (Repository_Compare_run F base_url change_id).1 =
        [change_url base_url change_id]) ∧
    (∀ body cd rev, F.fetch (change_url base_url change_id) = .ok body →
      F.jsonLoads (strip_gerrit_json body) = .ok cd →
      extract_revision cd = .ok rev →
      (Repository_Compare_run F base_url change_id).1[1]? =
        some (files_url base_url change_id rev.pyStr)) := by
  refine ⟨?_, fun m h1 => ?_, fun body e h1 h2 => ?_, fun body cd er h1 h2 h3 => ?_,
    fun body cd rev h1 h2 h3 => ?_⟩
  · rcases hfc : F.fetch (change_url base_url change_id) with body | m
    · rcases hdec : F.jsonLoads (strip_gerrit_json body) with e | cd
      · simp [Repository_Compare_run, hfc, hdec]
      · rcases hrev : extract_revision cd with er | rev
        · simp [Repository_Compare_run, hfc, hdec, hrev]
        · rcases hff : F.fetch (files_url base_url change_id rev.pyStr) with fbody | m
          · rcases hfd : F.jsonLoads (strip_gerrit_json fbody) with e | fd
            · simp [Repository_Compare_run, hfc, hdec, hrev, hff, hfd]
            · rcases hk : pyKeys fd with er | keys
              · simp [Repository_Compare_run, hfc, hdec, hrev, hff, hfd, hk]
              · simp [Repository_Compare_run, hfc, hdec, hrev, hff, hfd, hk]
          · simp [Repository_Compare_run, hfc, hdec, hrev, hff]
    · simp [Repository_Compare_run, hfc]
  · simp [Repository_Compare_run, h1]
  · simp [Repository_Compare_run, h1, h2]
  · simp [Repository_Compare_run, h1, h2, h3]
  · rcases hff : F.fetch (files_url base_url change_id rev.pyStr) with fbody | m
    · rcases hfd : F.jsonLoads (strip_gerrit_json fbody) with e | fd
      · simp [Repository_Compare_run, h1, h2, h3, hff, hfd]
      · rcases hk : pyKeys fd with er | keys
        · simp [Repository_Compare_run, h1, h2, h3, hff, hfd, hk]
        · simp [Repository_Compare_run, h1, h2, h3, hff, hfd, hk]
    · simp [Repository_Compare_run, h1, h2, h3, hff]

/-- Witness for C7: on concrete runs the first request is the change URL,
a successful prelude is followed by the file-list URL built from the
extracted revision, and a failing change request ends the trace. -/
theorem c7_witness :
    (Repository_Compare_run wF "http://g" "42").1.head? =
      some (change_url "http://g" "42") ∧
    (Repository_Compare_run wF "http://g" "42").1[1]? =
      some (files_url "http://g" "42" (Json.str "R").pyStr) ∧
    (Repository_Compare_run wFdown "http://g" "42").1 = [change_url "http://g" "42"] :=
  ⟨(c7_request_sequencing wF "http://g" "42").1,
   (c7_request_sequencing wF "http://g" "42").2.2.2.2 ")]\x7d'\nCH"
     (Json.obj [("current_revision", Json.str "R")]) (Json.str "R") rfl rfl rfl,
   (c7_request_sequencing wFdown "http://g" "42").2.1 "503 Service Unavailable" rfl⟩

/-- C8: failures before the per-file loop — the change fetch, its decode,
the `current_revision` extraction, the file-list fetch or its decode —
abort the whole run with an error and produce no results list. -/
theorem c8_prelude_failures_raise (F : Fetcher) (base_url change_id : String) :
    (∀ m, F.fetch (change_url base_url change_id) = .httpErr m →
      Repository_Compare F base_url change_id = .error (.httpError m)) ∧
    (∀ body e, F.fetch (change_url base_url change_id) = .ok body →
      F.jsonLoads (strip_gerrit_json body) = .error e →
      Repository_Compare F base_url change_id = .error (.runtimeError
        ("Decode change response failed: " ++ e ++ "\nRaw: " ++ pyTakeStr 200 body))) ∧
    (∀ body cd er, F.fetch (change_url base_url change_id) = .ok body →
      F.jsonLoads (strip_gerrit_json body) = .ok cd →
      extract_revision cd = .error er →
      Repository_Compare F base_url change_id = .error er) ∧
    (∀ body cd rev m, F.fetch (change_url base_url change_id) = .ok body →
      F.jsonLoads (strip_gerrit_json body) = .ok cd →
      extract_revision cd = .ok rev →
      F.fetch (files_url base_url change_id rev.pyStr) = .httpErr m →
      Repository_Compare F base_url change_id = .error (.httpError m)) ∧
    (∀ body cd rev fbody e, F.fetch (change_url base_url change_id) = .ok body →
      F.jsonLoads (strip_gerrit_json body) = .ok cd →
      extract_revision cd = .ok rev →
      F.fetch (files_url base_url change_id rev.pyStr) = .ok fbody →
      F.jsonLoads (strip_gerrit_json fbody) = .error e →
      Repository_Compare F base_url change_id = .error (.runtimeError
        ("Decode files response failed: " ++ e ++ "\nRaw: " ++ pyTakeStr 200 fbody))) := by
  refine ⟨fun m h1 => ?_, fun body e h1 h2 => ?_, fun body cd er h1 h2 h3 => ?_,
    fun body cd rev m h1 h2 h3 h4 => ?_, fun body cd rev fbody e h1 h2 h3 h4 h5 => ?_⟩
  · simp [Repository_Compare, Repository_Compare_run, h1]
  · simp [Repository_Compare, Repository_Compare_run, h1, h2]
  · simp [Repository_Compare, Repository_Compare_run, h1, h2, h3]
  · simp [Repository_Compare, Repository_Compare_run, h1, h2, h3, h4]
  · simp [Repository_Compare, Repository_Compare_run, h1, h2, h3, h4, h5]

/-- Witness for C8: a network whose change request fails makes the run
return that error and no result list. -/
theorem c8_witness :
    Repository_Compare wFdown "http://g" "42" =
      .error (.httpError "503 Service Unavailable") :=
  (c8_prelude_failures_raise wFdown "http://g" "42").1 "503 Service Unavailable" rfl

theorem make_message_ok (F : Fetcher) (u fp msg : String)
    (h : (make_message F u fp).2 = .ok msg) :
    msg = "" ∨ ∃ rendered, msg = "======== file: " ++ fp ++ "\n\n" ++ rendered := by
  by_cases hig : is_ignored_file fp
  · left
    simp [make_message, hig, pure, Except.pure] at h
    exact h.symm
  · right
    have hig2 : is_ignored_file fp = false := by simpa using hig
    rcases hf : F.fetch (diff_url u fp) with body | m
    · rcases hd : F.jsonLoads (strip_gerrit_json body) with er | rd
      · simp [make_message, hig2, hf, hd] at h
      · rcases hr : repository_compare rd with er | rendered
        · simp [make_message, hig2, hf, hd, hr] at h
        · simp [make_message, hig2, hf, hd, hr, pure, Except.pure] at h
          exact ⟨rendered, h.symm⟩
    · simp [make_message, hig2, hf] at h

theorem processFile_entry_header (F : Fetcher) (u fp e : String)
    (he : e ∈ (processFile F u fp).2) :
    ∃ rest, e = "======== file: " ++ fp ++ "\n\n" ++ rest := by
  have hp : (processFile F u fp).2 =
      (match (make_message F u fp).2 with
        | .ok msg => if msg = "" then [] else [msg]
        | .error (.httpError m) =>
          ["======== file: " ++ fp ++ "\n\n[HTTP error] " ++ m ++ "\n\n"]
        | .error er =>
          ["======== file: " ++ fp ++ "\n\n[Error] " ++ PyErr.pyStr er ++ "\n\n"]) := rfl
  rw [hp] at he
  rcases hmm2 : (make_message F u fp).2 with er | msg
  · rw [hmm2] at he
    rcases er with m | m | m | m
    · simp at he
      refine ⟨"[HTTP error] " ++ m ++ "\n\n", ?_⟩
      rw [he]
      apply String.ext
      simp [String.data_append, List.append_assoc]
    all_goals
      simp [PyErr.pyStr] at he
      refine ⟨"[Error] " ++ m ++ "\n\n", ?_⟩
      rw [he]
      apply String.ext
      simp [String.data_append, List.append_assoc]
  · rw [hmm2] at he
    by_cases hmsg : msg = ""
    · simp [hmsg] at he
    · simp [hmsg] at he
      rcases make_message_ok F u fp msg hmm2 with h0 | ⟨rendered, hrd⟩
      · exact absurd h0 hmsg
      · exact ⟨rendered, he ▸ hrd⟩

/-- C10: a run whose prelude succeeds returns exactly the per-file entries
of the filtered file list, grouped per file in the order of the filtered
keys, and every entry is non-empty and starts with `"======== file: "`
followed by that file's path. -/
theorem c10_entries_headed_and_ordered (F : Fetcher)
    (base_url change_id fu body fbody : String) (cd fd rev : Json)
    (keys : List String)
    (hfc : F.fetch (change_url base_url change_id) = .ok body)
    (hdec : F.jsonLoads (strip_gerrit_json body) = .ok cd)
    (hrev : extract_revision cd = .ok rev)
    (hfu : fu = files_url base_url change_id rev.pyStr)
    (hff : F.fetch fu = .ok fbody)
    (hfd : F.jsonLoads (strip_gerrit_json fbody) = .ok fd)
    (hk : pyKeys fd = .ok keys) :
    Repository_Compare F base_url change_id =
      .ok ((filtered_file_list keys).flatMap (fun fp => (processFile F fu fp).2)) ∧
    (∀ fp e, e ∈ (processFile F fu fp).2 →
      e ≠ "" ∧ e.data.take ("======== file: " ++ fp ++ "\n\n").data.length =
        ("======== file: " ++ fp ++ "\n\n").data) := by
  subst hfu
  constructor
  · simp [Repository_Compare, Repository_Compare_run, hfc, hdec, hrev, hff, hfd, hk,
      runFiles_eq]
  · intro fp e he
    obtain ⟨rest, hrest⟩ :=
      processFile_entry_header F (files_url base_url change_id rev.pyStr) fp e he
    constructor
    · rw [hrest]
      apply str_append_ne_empty
      rw [String.data_append]
      intro hcontra
      exact absurd (List.append_eq_nil.mp hcontra).1 (by decide)
    · rw [hrest]
      rw [show ("======== file: " ++ fp ++ "\n\n" ++ rest).data =
          ("======== file: " ++ fp ++ "\n\n").data ++ rest.data from
        String.data_append _ _]
      exact List.take_left _ _

/-- Witness for C10 on the concrete successful run. -/
theorem c10_witness :
    Repository_Compare wF "http://g" "42" =
      .ok ((filtered_file_list
          ["/COMMIT_MSG", "f.py", "g.md", "h.py", "/MERGE_LIST"]).flatMap
        (fun fp => (processFile wF (files_url "http://g" "42" "R") fp).2)) ∧
    ("======== file: h.py\n\n[HTTP error] 404 Client Error\n\n" ≠ "" ∧
      ("======== file: h.py\n\n[HTTP error] 404 Client Error\n\n" : String).data.take
          ("======== file: " ++ "h.py" ++ "\n\n").data.length =
        ("======== file: " ++ "h.py" ++ "\n\n").data) :=
  ⟨(c10_entries_headed_and_ordered wF "http://g" "42" (files_url "http://g" "42" "R")
      ")]\x7d'\nCH" ")]\x7d'\nFL" (Json.obj [("current_revision", Json.str "R")])
      (Json.obj [("/COMMIT_MSG", Json.null), ("f.py", Json.null), ("g.md", Json.null),
        ("h.py", Json.null), ("/MERGE_LIST", Json.null)])
      (Json.str "R") ["/COMMIT_MSG", "f.py", "g.md", "h.py", "/MERGE_LIST"]
      rfl rfl rfl rfl rfl rfl rfl).1,
   (c10_entries_headed_and_ordered wF "http://g" "42" (files_url "http://g" "42" "R")
      ")]\x7d'\nCH" ")]\x7d'\nFL" (Json.obj [("current_revision", Json.str "R")])
      (Json.obj [("/COMMIT_MSG", Json.null), ("f.py", Json.null), ("g.md", Json.null),
        ("h.py", Json.null), ("/MERGE_LIST", Json.null)])
      (Json.str "R") ["/COMMIT_MSG", "f.py", "g.md", "h.py", "/MERGE_LIST"]
      rfl rfl rfl rfl rfl rfl rfl).2 "h.py"
     "======== file: h.py\n\n[HTTP error] 404 Client Error\n\n" (by decide)⟩

theorem allStrs_some (l : List Json) (ls : List String)
    (h : allStrs l = some ls) : l = ls.map Json.str := by
  induction l generalizing ls with
  | nil => simp [allStrs] at h; simp [← h]
  | cons x xs ih =>
    cases x <;> simp [allStrs] at h
    rcases h with ⟨t, ht, hl⟩
    rw [← hl]
    simp [ih t ht]

theorem strLines_some (v : Json) (ls : List String)
    (h : strLines v = some ls) : v = Json.arr (ls.map Json.str) := by
  cases v <;> simp [strLines] at h
  simp [allStrs_some _ _ h]

theorem renderBlock_ab (n i : Nat) (fields : List (String × Json)) (lines : List String)
    (hab : jlookup fields "ab" = some (Json.arr (lines.map Json.str))) :
    renderBlock n i (Json.obj fields) = .ok (spec_ab_render n i lines) := by
  by_cases h0 : i = 0
  · simp [renderBlock, hab, asLines, Bind.bind, Except.bind, pure, Except.pure, h0,
      spec_ab_render, format_compare, joinNL, pyLast, ← List.map_drop, List.map_map,
      List.length_map, Function.comp_def, Json.pyStr, String.empty_append]
  · by_cases h1 : i = n - 1
    · subst h1
      simp [renderBlock, hab, asLines, Bind.bind, Except.bind, pure, Except.pure, h0,
        spec_ab_render, format_compare, joinNL, pyLast, pyTake, ← List.map_drop,
        ← List.map_take, List.map_map, List.length_map, Function.comp_def, Json.pyStr,
        String.empty_append]
    · simp [renderBlock, hab, asLines, Bind.bind, Except.bind, pure, Except.pure, h0, h1,
        spec_ab_render, format_compare, joinNL, pyLast, pyTake, ← List.map_drop,
        ← List.map_take, List.map_map, List.length_map, Function.comp_def, Json.pyStr,
        String.empty_append]

theorem renderBlock_changed (n i : Nat) (fields : List (String × Json))
    (la lb : List String)
    (hab : jlookup fields "ab" = none)
    (ha : jlookup fields "a" = none ∧ la = [] ∨
          jlookup fields "a" = some (Json.arr (la.map Json.str)))
    (hb : jlookup fields "b" = none ∧ lb = [] ∨
          jlookup fields "b" = some (Json.arr (lb.map Json.str))) :
    renderBlock n i (Json.obj fields) = .ok (spec_changed_render la lb) := by
  rcases ha with ⟨ha, rfl⟩ | ha <;> rcases hb with ⟨hb, rfl⟩ | hb <;>
    simp [renderBlock, hab, ha, hb, asLines, Bind.bind, Except.bind, pure, Except.pure,
      spec_changed_render, format_compare, List.map_map, Function.comp_def, Json.pyStr,
      String.empty_append, String.append_empty, String.join]

theorem renderBlocks_join (n : Nat) (blocks : List Json) (f : Nat → String) :
    ∀ i, (∀ j (hj : j < blocks.length),
        renderBlock n (i + j) (blocks.get ⟨j, hj⟩) = .ok (f (i + j))) →
      renderBlocks n i blocks =
        .ok (String.join ((List.range blocks.length).map (fun j => f (i + j)))) := by
  induction blocks with
  | nil => intro i h; simp [renderBlocks, String.join, pure, Except.pure]
  | cons b rest ih =>
    intro i h
    have hb := h 0 (Nat.succ_pos _)
    simp only [Nat.add_zero, List.get] at hb
    have hrest := ih (i + 1) (fun j hj => by
      have h2 := h (j + 1) (Nat.succ_lt_succ hj)
      have e : i + (j + 1) = i + 1 + j := by omega
      rw [e] at h2
      simpa using h2)
    rw [renderBlocks, hb, hrest]
    have harith : ∀ j : Nat, i + 1 + j = i + (j + 1) := fun j => by omega
    simp [Bind.bind, Except.bind, pure, Except.pure, List.range_succ_eq_map, join_cons,
      List.map_map, Function.comp_def, harith, Nat.succ_eq_add_one]

theorem wfBlock_obj (fields : List (String × Json)) (h : wfBlock (Json.obj fields) = true) :
    wfOptVal (jlookup fields "ab") = true ∧ wfOptVal (jlookup fields "a") = true ∧
      wfOptVal (jlookup fields "b") = true := by
  simp [wfBlock] at h
  exact ⟨h.1.1, h.1.2, h.2⟩

theorem wfOptVal_cases (o : Option Json) (h : wfOptVal o = true) :
    o = none ∨ ∃ ls : List String, o = some (Json.arr (ls.map Json.str)) := by
  cases o with
  | none => exact Or.inl rfl
  | some v =>
    right
    simp [wfOptVal] at h
    rcases Option.isSome_iff_exists.mp h with ⟨ls, hls⟩
    exact ⟨ls, by rw [strLines_some v ls hls]⟩

theorem renderBlock_ok_of_wf (n i : Nat) (b : Json) (h : wfBlock b = true) :
    ∃ s, renderBlock n i b = .ok s := by
  cases b with
  | obj fields =>
    obtain ⟨hab, ha, hb⟩ := wfBlock_obj fields h
    rcases wfOptVal_cases _ hab with hab2 | ⟨ls, hab2⟩
    · rcases wfOptVal_cases _ ha with ha2 | ⟨la, ha2⟩ <;>
        rcases wfOptVal_cases _ hb with hb2 | ⟨lb, hb2⟩
      · exact ⟨_, renderBlock_changed n i fields [] [] hab2
          (Or.inl ⟨ha2, rfl⟩) (Or.inl ⟨hb2, rfl⟩)⟩
      · exact ⟨_, renderBlock_changed n i fields [] lb hab2
          (Or.inl ⟨ha2, rfl⟩) (Or.inr hb2)⟩
      · exact ⟨_, renderBlock_changed n i fields la [] hab2
          (Or.inr ha2) (Or.inl ⟨hb2, rfl⟩)⟩
      · exact ⟨_, renderBlock_changed n i fields la lb hab2
          (Or.inr ha2) (Or.inr hb2)⟩
    · exact ⟨_, renderBlock_ab n i fields ls hab2⟩
  | null => simp [wfBlock] at h
  | bool x => simp [wfBlock] at h
  | num x => simp [wfBlock] at h
  | str x => simp [wfBlock] at h
  | arr x => simp [wfBlock] at h

theorem render_characterization (blocks : List Json)
    (hwf : ∀ b ∈ blocks, wfBlock b = true) :
    repository_compare (Json.obj [("content", Json.arr blocks)]) =
      .ok (String.join ((List.range blocks.length).map (codeContrib blocks)) ++
        "\n\n\n") := by
  have hcontent : getContent (Json.obj [("content", Json.arr blocks)]) = pure blocks := by
    simp [getContent, jlookup, pure, Except.pure]
  have hjoin := renderBlocks_join blocks.length blocks
    (fun j => okValue (renderBlock blocks.length j (blocks.getD j Json.null))) 0
    (fun j hj => by
      have hget : blocks.get ⟨j, hj⟩ = blocks.getD j Json.null := by
        rw [List.getD_eq_getElem blocks Json.null hj]; rfl
      obtain ⟨s, hs⟩ := renderBlock_ok_of_wf blocks.length j (blocks.get ⟨j, hj⟩)
        (hwf _ (List.get_mem blocks j hj))
      rw [Nat.zero_add]
      show renderBlock blocks.length j (blocks.get ⟨j, hj⟩) =
        Except.ok (okValue (renderBlock blocks.length j (blocks.getD j Json.null)))
      rw [← hget, hs]
      simp [okValue])
  simp only [Nat.zero_add] at hjoin
  rw [repository_compare, hcontent]
  simp only [Bind.bind, Except.bind, pure, Except.pure, hjoin]
  rfl

/-- C1: for well-formed content, the rendered output is the concatenation
of the per-block contributions, and every unchanged-context (`"ab"`) block
contributes exactly the bounded context the claim states: only its last 4
lines for the first block, only its first 4 lines for the last block, its
first 4 then last 4 lines otherwise, each emitted line newline-terminated. -/
theorem c1_unchanged_blocks_bounded_context (blocks : List Json)
    (hwf : ∀ b ∈ blocks, wfBlock b = true) :
    repository_compare (Json.obj [("content", Json.arr blocks)]) =
      .ok (String.join ((List.range blocks.length).map (codeContrib blocks)) ++
        "\n\n\n") ∧
    ∀ i (hi : i < blocks.length) (lines : List String),
      abLines (blocks.get ⟨i, hi⟩) = some lines →
      codeContrib blocks i = spec_ab_render blocks.length i lines := by
  refine ⟨render_characterization blocks hwf, ?_⟩
  intro i hi lines habl
  have hget : blocks.getD i Json.null = blocks.get ⟨i, hi⟩ := by
    rw [List.getD_eq_getElem blocks Json.null hi]; rfl
  cases hb : blocks.get ⟨i, hi⟩ with
  | obj fields =>
    rw [hb] at habl
    simp only [abLines] at habl
    obtain ⟨v, hv, hstr⟩ := Option.bind_eq_some.mp habl
    rw [strLines_some v lines hstr] at hv
    rw [codeContrib, hget, hb, renderBlock_ab blocks.length i fields lines hv]
    simp [okValue]
  | null => rw [hb] at habl; simp [abLines] at habl
  | bool x => rw [hb] at habl; simp [abLines] at habl
  | num x => rw [hb] at habl; simp [abLines] at habl
  | str x => rw [hb] at habl; simp [abLines] at habl
  | arr x => rw [hb] at habl; simp [abLines] at habl

/-- Witness for C1 on the concrete three-block content. -/
theorem c1_witness :
    repository_compare (Json.obj [("content", Json.arr wBlocks)]) =
      .ok (String.join ((List.range wBlocks.length).map (codeContrib wBlocks)) ++
        "\n\n\n") ∧
    codeContrib wBlocks 0 =
      spec_ab_render wBlocks.length 0 ["c1", "c2", "c3", "c4", "c5"] :=
  ⟨(c1_unchanged_blocks_bounded_context wBlocks (by decide)).1,
   (c1_unchanged_blocks_bounded_context wBlocks (by decide)).2 0 (by decide)
     ["c1", "c2", "c3", "c4", "c5"] (by decide)⟩

/-- C2: for well-formed content, every changed block (no `"ab"` key)
contributes all of its removed lines with a `-` marker followed by all of
its added lines with a `+` marker, newline-terminated and untruncated. -/
theorem c2_changed_blocks_untruncated (blocks : List Json)
    (hwf : ∀ b ∈ blocks, wfBlock b = true) :
    repository_compare (Json.obj [("content", Json.arr blocks)]) =
      .ok (String.join ((List.range blocks.length).map (codeContrib blocks)) ++
        "\n\n\n") ∧
    ∀ i (hi : i < blocks.length) (la lb : List String),
      hasAb (blocks.get ⟨i, hi⟩) = false →
      aLines (blocks.get ⟨i, hi⟩) = some la →
      bLines (blocks.get ⟨i, hi⟩) = some lb →
      codeContrib blocks i = spec_changed_render la lb := by
  refine ⟨render_characterization blocks hwf, ?_⟩
  intro i hi la lb hab ha hb2
  have hget : blocks.getD i Json.null = blocks.get ⟨i, hi⟩ := by
    rw [List.getD_eq_getElem blocks Json.null hi]; rfl
  cases hb : blocks.get ⟨i, hi⟩ with
  | obj fields =>
    rw [hb] at hab ha hb2
    have habn : jlookup fields "ab" = none := by
      rcases h2 : jlookup fields "ab" with _ | v
      · rfl
      · simp [hasAb, h2] at hab
    have haArg : jlookup fields "a" = none ∧ la = [] ∨
        jlookup fields "a" = some (Json.arr (la.map Json.str)) := by
      rcases h2 : jlookup fields "a" with _ | v
      · left
        simp [aLines, h2] at ha
        exact ⟨rfl, ha⟩
      · right
        simp [aLines, h2] at ha
        rw [strLines_some v la ha]
    have hbArg : jlookup fields "b" = none ∧ lb = [] ∨
        jlookup fields "b" = some (Json.arr (lb.map Json.str)) := by
      rcases h2 : jlookup fields "b" with _ | v
      · left
        simp [bLines, h2] at hb2
        exact ⟨rfl, hb2⟩
      · right
        simp [bLines, h2] at hb2
        rw [strLines_some v lb hb2]
    rw [codeContrib, hget, hb,
      renderBlock_changed blocks.length i fields la lb habn haArg hbArg]
    simp [okValue]
  | null => rw [hb] at ha; simp [aLines] at ha
  | bool x => rw [hb] at ha; simp [aLines] at ha
  | num x => rw [hb] at ha; simp [aLines] at ha
  | str x => rw [hb] at ha; simp [aLines] at ha
  | arr x => rw [hb] at ha; simp [aLines] at ha

/-- Witness for C2 on the concrete three-block content. -/
theorem c2_witness :
    repository_compare (Json.obj [("content", Json.arr wBlocks)]) =
      .ok (String.join ((List.range wBlocks.length).map (codeContrib wBlocks)) ++
        "\n\n\n") ∧
    codeContrib wBlocks 1 = spec_changed_render ["old"] ["new"] :=
  ⟨(c2_changed_blocks_untruncated wBlocks (by decide)).1,
   (c2_changed_blocks_untruncated wBlocks (by decide)).2 1 (by decide) ["old"] ["new"]
     (by decide) (by decide) (by decide)⟩

/-- C9: a middle unchanged block holding between 1 and 7 lines emits
`min 4 n + min 4 n` lines, and the two slices overlap, so some line of the
block appears at least twice in its contribution. -/
theorem c9_short_middle_context_duplicates (n i : Nat)
    (fields : List (String × Json)) (lines : List String)
    (h1 : 1 ≤ lines.length) (h2 : lines.length < 8) (hi0 : i ≠ 0) (hin : i ≠ n - 1)
    (hab : jlookup fields "ab" = some (Json.arr (lines.map Json.str))) :
    renderBlock n i (Json.obj fields) =
      .ok (joinNL (lines.take 4 ++ lines.drop (lines.length - 4))) ∧
    (lines.take 4 ++ lines.drop (lines.length - 4)).length =
      min 4 lines.length + min 4 lines.length ∧
    2 ≤ (lines.take 4 ++ lines.drop (lines.length - 4)).count
      (lines.getD (lines.length - 4) "") := by
  refine ⟨?_, ?_, ?_⟩
  · rw [renderBlock_ab n i fields lines hab, spec_ab_render, if_neg hi0, if_neg hin,
      joinNL_append]
  · simp only [List.length_append, List.length_take, List.length_drop]
    omega
  · have hjl : lines.length - 4 < lines.length := by omega
    have hx : lines.getD (lines.length - 4) "" = lines.get ⟨lines.length - 4, hjl⟩ := by
      rw [List.getD_eq_getElem lines "" hjl]; rfl
    rw [hx]
    have hmem1 : lines.get ⟨lines.length - 4, hjl⟩ ∈ lines.take 4 := by
      have hb1 : lines.length - 4 < (lines.take 4).length := by
        simp only [List.length_take]
        omega
      have he : (lines.take 4).get ⟨lines.length - 4, hb1⟩ =
          lines.get ⟨lines.length - 4, hjl⟩ := by
        simp [List.get_eq_getElem, List.getElem_take]
      rw [← he]
      exact List.get_mem _ _ _
    have hmem2 : lines.get ⟨lines.length - 4, hjl⟩ ∈ lines.drop (lines.length - 4) := by
      have hb2 : 0 < (lines.drop (lines.length - 4)).length := by
        simp only [List.length_drop]
        omega
      have he : (lines.drop (lines.length - 4)).get ⟨0, hb2⟩ =
          lines.get ⟨lines.length - 4, hjl⟩ := by
        simp [List.get_eq_getElem, List.getElem_drop]
      rw [← he]
      exact List.get_mem _ _ _
    rw [List.count_append]
    have hc1 := List.count_pos_iff.mpr hmem1
    have hc2 := List.count_pos_iff.mpr hmem2
    omega

/-- Witness for C9: a two-line middle context block emits four lines with
each line duplicated. -/
theorem c9_witness :
    renderBlock 3 1 (Json.obj [("ab", Json.arr [Json.str "a", Json.str "b"])]) =
      .ok (joinNL (["a", "b"].take 4 ++ ["a", "b"].drop (["a", "b"].length - 4))) ∧
    (["a", "b"].take 4 ++ ["a", "b"].drop (["a", "b"].length - 4)).length =
      min 4 ["a", "b"].length + min 4 ["a", "b"].length ∧
    2 ≤ (["a", "b"].take 4 ++ ["a", "b"].drop (["a", "b"].length - 4)).count
      (["a", "b"].getD (["a", "b"].length - 4) "") :=
  c9_short_middle_context_duplicates 3 1 [("ab", Json.arr [Json.str "a", Json.str "b"])]
    ["a", "b"] (by decide) (by decide) (by decide) (by decide) rfl
